import Mathlib

/-!
Shallow embedding of the MTG Arena match-log interpreter
(`src/parsers/match_parser.py`, class `MatchParser`).

Python dictionaries are embedded as association lists (`List (κ × α)`) with
Python's mutation semantics: assignment to an existing key replaces the
stored value in place (keeping insertion order), assignment to a fresh key
appends.  `card_db` is keyed in Python by the decimal string of a card id
and every access goes through `str(grp_id)` / `int(grp_id_str)`, so it is
embedded with `Nat` keys directly.  `defaultdict(int)` fields are embedded
as total functions `Nat → Nat` (a key "absent" from the dictionary is
exactly a key with count 0).  Python string operations (`in`, `split`,
`strip`) are embedded as executable functions on `List Char` so that the
kernel can evaluate them.  Log lines are embedded as records carrying, for
each extractor, the result of the substring guards and regex/JSON
extraction that the Python code performs on the raw text.
-/

namespace MTGA

/-! ## Python dictionaries as association lists -/

/-- Python `dict` lookup (`d.get(k)` / `k in d`). -/
def dlookup {κ α : Type} [BEq κ] (l : List (κ × α)) (k : κ) : Option α :=
  (l.find? (fun p => p.1 == k)).map (·.2)

/-- Python `dict` assignment `d[k] = v`: replace in place if the key exists,
append otherwise. -/
def dset {κ α : Type} [BEq κ] (l : List (κ × α)) (k : κ) (v : α) : List (κ × α) :=
  if (l.find? (fun p => p.1 == k)).isSome then
    l.map (fun p => if p.1 == k then (k, v) else p)
  else l ++ [(k, v)]

/-! ## Python string operations, on `List Char` -/

/-- Python `pat in s` substring test. -/
def pyContains (pat : List Char) : List Char → Bool
  | [] => pat.isPrefixOf ([] : List Char)
  | c :: rest => pat.isPrefixOf (c :: rest) || pyContains pat rest

/-- Fuel-driven worker for Python `s.split(sep)` (leftmost, non-overlapping
matches; `sep` is never empty where the parser uses it). -/
def pySplitAux (sep : List Char) : Nat → List Char → List Char → List (List Char)
  | 0, s, acc => [acc.reverse ++ s]
  | _ + 1, [], acc => [acc.reverse]
  | fuel + 1, c :: rest, acc =>
    if sep.isPrefixOf (c :: rest) then
      acc.reverse :: pySplitAux sep fuel (List.drop (sep.length - 1) rest) []
    else pySplitAux sep fuel rest (c :: acc)

/-- Python `s.split(sep)` for a non-empty separator. -/
def pySplit (s sep : List Char) : List (List Char) :=
  pySplitAux sep (s.length + 1) s []

/-- Python `s.strip()`: drop whitespace from both ends. -/
def pyStrip (s : List Char) : List Char :=
  ((s.dropWhile Char.isWhitespace).reverse.dropWhile Char.isWhitespace).reverse

/-- Python `pat in s`, on `String`. -/
def strContains (s pat : String) : Bool :=
  pyContains pat.data s.data

/-- Python `s.split(sep)`, on `String`. -/
def strSplit (s sep : String) : List String :=
  (pySplit s.data sep.data).map String.mk

/-- Python `s.strip()`, on `String`. -/
def strStrip (s : String) : String :=
  String.mk (pyStrip s.data)

/-! ## Data model (`src/type_definitions.py` and parser state) -/

/-- `CardInfo` from `src/type_definitions.py`; only the `name` field is ever
read by the parser (`card_info.get('name', '')`). -/
structure CardInfo where
  name : String
  deriving DecidableEq

/-- `InstanceLocation` from `src/type_definitions.py`, as actually populated
by `_track_instance_locations`: `zone` and `owner` come from `obj.get(...)`
and may be absent (`None`), `visibility` defaults to `''`. -/
structure InstanceLocation where
  grpId : Nat
  zone : Option Nat
  owner : Option Nat
  visibility : String
  deriving DecidableEq

/-- One entry of a `gameObjects` array as read by `_track_instance_locations`:
`obj.get('instanceId')`, `obj.get('grpId')`, `obj.get('ownerSeatId')`,
`obj.get('zoneId')`, `obj.get('visibility', '')`. -/
structure GameObject where
  instanceId : Option Nat
  grpId : Option Nat
  ownerSeatId : Option Nat
  zoneId : Option Nat
  visibility : String
  deriving DecidableEq

/-- The structured content the per-line extractors of `MatchParser.parse`
read out of one raw log line.  Each field is the result of the corresponding
substring guard plus regex/JSON extraction in the Python code; a failed
guard or failed extraction is the empty/`none` value. -/
structure LogLine where
  /-- `self.match_id in line` (the literal match-id token occurs). -/
  hasToken : Bool
  /-- `'matchId' in line` (the literal key substring occurs). -/
  hasMatchIdKey : Bool
  /-- `_build_instance_mappings`: the `(instanceId, grpId)` pairs produced by
  `object_pattern` (empty when the `"grpId"`/`"instanceId"` guards fail). -/
  instGrpPairs : List (Nat × Nat)
  /-- `_process_instance_id_changes`: whether the line carries the
  `"AnnotationType_ObjectIdChanged"` substring. -/
  hasIdChangeTag : Bool
  /-- `_process_instance_id_changes`: the zipped `(orig_id, new_id)` pairs. -/
  idChanges : List (Nat × Nat)
  /-- `_extract_player_deck`: the parsed `deckCards` int list, when the
  `deckMessage`/`deckCards` guards and the regex succeed. -/
  deckCards : Option (List Nat)
  /-- `_extract_opponent_deck_size`: `'"ZoneType_Library"' in line`. -/
  hasLibraryTag : Bool
  /-- `_extract_opponent_deck_size`: the seats `s` for which the regex
  `"ownerSeatId"\s*:\s*s` matches the line. -/
  libOwnerSeats : List Nat
  /-- `_extract_opponent_deck_size`: the `objectInstanceIds` list captured by
  the regex, when it matches. -/
  libInstanceIds : Option (List Nat)
  /-- `_extract_commanders`: the `(ownerSeatId, objectInstanceIds)` of every
  `ZoneType_Command` zone object found by `find_zones` (empty when the guard
  or `json.loads` fails). -/
  commandZones : List (Option Nat × List Nat)
  /-- `_extract_hand_zones`: the `(zoneId, ownerSeatId, objectInstanceIds)`
  triples matched by `zone_pattern`. -/
  handZones : List (Nat × Nat × List Nat)
  /-- `_track_instance_locations`: the concatenation of every `gameObjects`
  array found by `find_game_objects` (empty when the guards or `json.loads`
  fail; non-dict entries are dropped). -/
  gameObjects : List GameObject
  /-- `_detect_seat_from_connect_resp`: when the `"systemSeatIds"` /
  `"greToClientEvent"` guards and `json.loads` succeed, the `systemSeatIds`
  list of each entry of `greToClientMessages`. -/
  greMessages : Option (List (List Nat))
  /-- `_detect_seat_from_reserved_players` / `_extract_opponent_name`: when
  the `"reservedPlayers"` guard and `json.loads` succeed, the
  `(systemSeatId, playerName)` of each reserved player. -/
  reservedPlayers : Option (List (Option Nat × String))
  deriving DecidableEq

/-- The mutable state of a `MatchParser` instance (its `self.*` fields),
minus the path/match-id strings that only steer raw-text I/O. -/
structure ParserState where
  card_db : List (Nat × CardInfo)
  split_card_grp_map : List (Nat × Nat)
  player_seat_id : Nat
  opponent_seat_id : Nat
  instance_locations : List (Nat × InstanceLocation)
  instance_id_map : List (Nat × Nat)
  instance_to_grp : List (Nat × Nat)
  final_player_hand : List Nat
  final_opponent_hand : List Nat
  player_deck : Nat → Nat
  opponent_deck_size : Nat
  player_commander : Option Nat
  opponent_commander : Option Nat

/-! ## `_build_split_card_map` -/

/-- The separator test of `_build_split_card_map`'s first pass:
`' // ' in name or ' /// ' in name`. -/
def isSplitName (name : String) : Bool :=
  strContains name " // " || strContains name " /// "

/-- First pass of `_build_split_card_map`: build `full_cards`
(name → canonical grpId, first id wins) and `full_card_grp_ids`
(name → all grpIds carrying that name). -/
def splitFirstPass (db : List (Nat × CardInfo)) :
    List (String × Nat) × List (String × List Nat) :=
  db.foldl
    (fun acc e =>
      let name := e.2.name
      if isSplitName name then
        let acc1 :=
          if (dlookup acc.1 name).isNone then
            (dset acc.1 name e.1, dset acc.2 name [])
          else acc
        (acc1.1, dset acc1.2 name (((dlookup acc1.2 name).getD []) ++ [e.1]))
      else acc)
    ([], [])

/-- The separator selection plus `full_name.split(separator)` and per-part
`strip()` of `_build_split_card_map`'s second pass; `none` when the name
carries neither separator. -/
def faceParts (full_name : String) : Option (List String) :=
  if strContains full_name " // " then
    some ((strSplit full_name " // ").map strStrip)
  else if strContains full_name " /// " then
    some ((strSplit full_name " /// ").map strStrip)
  else none

/-- Inner loop of the second pass: walk `full_cards` in insertion order and
map `grp` to the first full card one of whose face names equals `name`
(the Python `break`). -/
def mapHalfToFull (gm : List (Nat × Nat)) (name : String) (grp : Nat) :
    List (String × Nat) → List (Nat × Nat)
  | [] => gm
  | fc :: rest =>
    match faceParts fc.1 with
    | some parts =>
      if name ∈ parts then dset gm grp fc.2 else mapHalfToFull gm name grp rest
    | none => mapHalfToFull gm name grp rest

/-- `_build_split_card_map`. -/
def buildSplitCardMap (db : List (Nat × CardInfo)) : List (Nat × Nat) :=
  let fp := splitFirstPass db
  let full_cards := fp.1
  let full_card_grp_ids := fp.2
  -- map all duplicate full-card grpIds to the canonical one
  let gm0 : List (Nat × Nat) :=
    full_cards.foldl
      (fun gm fc =>
        ((dlookup full_card_grp_ids fc.1).getD []).foldl
          (fun gm g => if g ≠ fc.2 then dset gm g fc.2 else gm) gm)
      []
  -- second pass: map halves to full cards
  db.foldl (fun gm e => mapHalfToFull gm e.2.name e.1 full_cards) gm0

/-- `self.split_card_grp_map.get(grp_id, grp_id)`. -/
def splitGet (m : List (Nat × Nat)) (g : Nat) : Nat :=
  (dlookup m g).getD g

/-! ## Per-line extractors -/

/-- `_build_instance_mappings`. -/
def buildInstanceMappings (st : ParserState) (l : LogLine) : ParserState :=
  l.instGrpPairs.foldl
    (fun st p =>
      -- skip tokens (not in card database)
      if (dlookup st.card_db p.2).isNone then st
      else
        { st with instance_to_grp := dset st.instance_to_grp p.1 (splitGet st.split_card_grp_map p.2) })
    st

/-- `_process_instance_id_changes`. -/
def processIdChanges (st : ParserState) (l : LogLine) : ParserState :=
  if !l.hasIdChangeTag then st
  else
    l.idChanges.foldl
      (fun st p =>
        let st1 := { st with instance_id_map := dset st.instance_id_map p.1 p.2 }
        match dlookup st1.instance_to_grp p.1 with
        | some g => { st1 with instance_to_grp := dset st1.instance_to_grp p.2 g }
        | none => st1)
      st

/-- `_extract_player_deck`. -/
def extractPlayerDeck (st : ParserState) (l : LogLine) : ParserState :=
  match l.deckCards with
  | none => st
  | some cards =>
    { st with player_deck :=
        cards.foldl (fun d g => fun x => if x = g then d x + 1 else d x) st.player_deck }

/-- `_extract_opponent_deck_size`. -/
def extractOpponentDeckSize (st : ParserState) (l : LogLine) : ParserState :=
  if !l.hasLibraryTag then st
  else if st.opponent_seat_id ∈ l.libOwnerSeats then
    match l.libInstanceIds with
    | some ids =>
      -- keep the maximum library size (starting deck size)
      if ids.length > st.opponent_deck_size then
        { st with opponent_deck_size := ids.length }
      else st
    | none => st
  else st

/-- Python truthiness of an `Optional[int]`: `not x` holds for `None` and `0`. -/
def optFalsy (o : Option Nat) : Bool :=
  o.getD 0 == 0

/-- `_extract_commanders`. -/
def extractCommanders (st : ParserState) (l : LogLine) : ParserState :=
  l.commandZones.foldl
    (fun st z =>
      if z.2 = [] then st
      else
        z.2.foldl
          (fun st inst =>
            match dlookup st.instance_to_grp inst with
            | none => st
            | some g =>
              if z.1 = some st.player_seat_id && optFalsy st.player_commander then
                { st with player_commander := some g }
              else if z.1 = some st.opponent_seat_id && optFalsy st.opponent_commander then
                { st with opponent_commander := some g }
              else st)
          st)
    st

/-- `_extract_hand_zones`. -/
def extractHandZones (st : ParserState) (l : LogLine) : ParserState :=
  l.handZones.foldl
    (fun st z =>
      if z.2.1 = st.player_seat_id then { st with final_player_hand := z.2.2 }
      else if z.2.1 = st.opponent_seat_id then { st with final_opponent_hand := z.2.2 }
      else st)
    st

/-- The per-object body of `_track_instance_locations`. -/
def trackObject (st : ParserState) (obj : GameObject) : ParserState :=
  match obj.instanceId, obj.grpId with
  | some iid, some gid =>
    if (dlookup st.card_db gid).isNone then st
    else
      -- normalize split cards
      let ngid := splitGet st.split_card_grp_map gid
      -- commanders in command zone (zone 32 for seat 1, zone 34 for seat 2)
      let st1 :=
        if obj.zoneId = some 32 ∨ obj.zoneId = some 34 then
          if obj.ownerSeatId = some st.player_seat_id && optFalsy st.player_commander then
            { st with player_commander := some ngid }
          else if obj.ownerSeatId = some st.opponent_seat_id && optFalsy st.opponent_commander then
            { st with opponent_commander := some ngid }
          else st
        else st
      -- only track visible cards
      if obj.visibility = "Visibility_Public" ∨ obj.ownerSeatId = some st1.player_seat_id then
        { st1 with instance_locations := dset st1.instance_locations iid ⟨ngid, obj.zoneId, obj.ownerSeatId, obj.visibility⟩ }
      else st1
  | _, _ => st

/-- `_track_instance_locations`. -/
def trackInstanceLocations (st : ParserState) (l : LogLine) : ParserState :=
  l.gameObjects.foldl trackObject st

/-- The per-line body of the scan loop in `parse`: every extractor is
offered the line, in source order. -/
def processLine (st : ParserState) (l : LogLine) : ParserState :=
  trackInstanceLocations
    (extractHandZones
      (extractCommanders
        (extractOpponentDeckSize
          (extractPlayerDeck
            (processIdChanges
              (buildInstanceMappings st l) l) l) l) l) l) l

/-- The scan loop of `parse`: `in_match` starts `False`, a line containing
the match-id token turns it on, lines before that are skipped, and a line
containing `'matchId'` but not the token breaks the loop. -/
def parseLines (st : ParserState) (inMatch : Bool) : List LogLine → ParserState
  | [] => st
  | l :: rest =>
    let im := if l.hasToken then true else inMatch
    if !im then parseLines st im rest
    else if l.hasMatchIdKey && !l.hasToken then st
    else parseLines (processLine st l) im rest

/-! ## Seat detection (`_detect_player_seat` and its two strategies) -/

/-- `msg.get('systemSeatIds', [])` of the first message with a singleton
seat list (`if seat_ids and len(seat_ids) == 1`). -/
def firstSingletonSeat : List (List Nat) → Option Nat
  | [] => none
  | m :: rest =>
    if !m.isEmpty && m.length == 1 then m.head? else firstSingletonSeat rest

/-- `_detect_seat_from_connect_resp`. -/
def detectSeatFromConnectResp : List LogLine → Option Nat
  | [] => none
  | l :: rest =>
    if !l.hasToken then detectSeatFromConnectResp rest
    else
      match l.greMessages with
      | none => detectSeatFromConnectResp rest
      | some msgs =>
        match firstSingletonSeat msgs with
        | some s => some s
        | none => detectSeatFromConnectResp rest

/-- `_detect_seat_from_reserved_players`: returns the `systemSeatId` of the
first reserved player of the first line exposing a non-empty list (that
seat id may itself be absent, in which case Python returns `None`). -/
def detectSeatFromReservedPlayers : List LogLine → Option Nat
  | [] => none
  | l :: rest =>
    if !l.hasToken then detectSeatFromReservedPlayers rest
    else
      match l.reservedPlayers with
      | none => detectSeatFromReservedPlayers rest
      | some [] => detectSeatFromReservedPlayers rest
      | some (p :: _) => p.1

/-- `_detect_player_seat`: strategy order with hard-coded fallback to 1. -/
def detectPlayerSeat (lines : List LogLine) : Nat :=
  match detectSeatFromConnectResp lines with
  | some s => s
  | none =>
    match detectSeatFromReservedPlayers lines with
    | some s => s
    | none => 1

/-- `self.opponent_seat_id = 2 if player_seat_id == 1 else 1`. -/
def opponentSeatOf (p : Nat) : Nat :=
  if p = 1 then 2 else 1

/-- The parser state right after `__init__` plus seat detection, before the
main scan: empty trackers, split map built from the card database. -/
def initState (db : List (Nat × CardInfo)) (pseat : Nat) : ParserState :=
  { card_db := db
    split_card_grp_map := buildSplitCardMap db
    player_seat_id := pseat
    opponent_seat_id := opponentSeatOf pseat
    instance_locations := []
    instance_id_map := []
    instance_to_grp := []
    final_player_hand := []
    final_opponent_hand := []
    player_deck := fun _ => 0
    opponent_deck_size := 0
    player_commander := none
    opponent_commander := none }

/-! ## `_count_revealed_cards` -/

/-- `relevant_zones = [28, 29, 31, 33, 35, 37]`. -/
def relevantZones : List Nat := [28, 29, 31, 33, 35, 37]

/-- `zone not in relevant_zones` fails for `None` as well: only a present
zone id belonging to the list passes. -/
def zoneRelevant : Option Nat → Bool
  | some z => z ∈ relevantZones
  | none => false

/-- `obsolete_instances = set(self.instance_id_map.keys())`. -/
def obsoleteInstances (st : ParserState) : List Nat :=
  st.instance_id_map.map (·.1)

/-- `instances_with_history = set(self.instance_id_map.values())`. -/
def instancesWithHistory (st : ParserState) : List Nat :=
  st.instance_id_map.map (·.2)

/-- `valid_instances = instances_with_history ∪ final_player_hand ∪
final_opponent_hand`. -/
def validInstances (st : ParserState) : List Nat :=
  instancesWithHistory st ++ st.final_player_hand ++ st.final_opponent_hand

/-- The filter building `instance_final_location`: skip obsolete instances,
skip invalid instances, skip zones outside `relevant_zones`.  (The source
dictionary has unique keys, so "last location wins" is the stored record.) -/
def instanceFinalLocation (st : ParserState) : List (Nat × InstanceLocation) :=
  st.instance_locations.filter
    (fun p =>
      !(p.1 ∈ obsoleteInstances st) && (p.1 ∈ validInstances st)
        && zoneRelevant p.2.zone)

/-- The distinct `(grpId, owner, zone)` keys of `zone_cards`. -/
def zoneCardKeys (st : ParserState) : List (Nat × Option Nat × Option Nat) :=
  ((instanceFinalLocation st).map (fun p => (p.2.grpId, p.2.owner, p.2.zone))).dedup

/-- `len(instance_set)` for one `(grpId, owner, zone)` key: the number of
distinct instance ids grouped under it. -/
def numCopies (st : ParserState) (k : Nat × Option Nat × Option Nat) : Nat :=
  (((instanceFinalLocation st).filter
      (fun p => (p.2.grpId, p.2.owner, p.2.zone) = k)).map (·.1)).dedup.length

/-- `_count_revealed_cards`, as the pair of count functions
(`player_cards`, `opponent_cards`); split-card half keys are skipped, a
group goes to the player when `owner == player_seat_id` and otherwise to
the opponent when `owner == opponent_seat_id`. -/
def countRevealedCards (st : ParserState) : (Nat → Nat) × (Nat → Nat) :=
  (fun g =>
      (((zoneCardKeys st).filter
          (fun k => k.1 = g && (dlookup st.split_card_grp_map k.1).isNone
            && k.2.1 = some st.player_seat_id)).map (numCopies st)).sum,
   fun g =>
      (((zoneCardKeys st).filter
          (fun k => k.1 = g && (dlookup st.split_card_grp_map k.1).isNone
            && !(k.2.1 = some st.player_seat_id)
            && k.2.1 = some st.opponent_seat_id)).map (numCopies st)).sum)

/-- Removing one instance id from the location tracker (used to state that
a record contributes nothing to the final counts). -/
def eraseInstance (st : ParserState) (i : Nat) : ParserState :=
  { st with instance_locations := st.instance_locations.filter (fun p => !(p.1 == i)) }

/-- The decidable `NoFaceOverlap` side condition for the amended split-map
idempotence claim: no catalog entry whose name is a full split-card name
(`' // '`/`' /// '`) is itself one of the face names of any full card. -/
def noFaceOverlap (db : List (Nat × CardInfo)) : Bool :=
  db.all (fun e =>
    db.all (fun e2 =>
      !isSplitName e.2.name || !((faceParts e2.2.name).getD []).contains e.2.name))

/-! ## Concrete inputs used in scenarios, counterexamples and witnesses -/

/-- A log line on which every guard fails (all extractors skip it). -/
def emptyLine : LogLine :=
  { hasToken := true, hasMatchIdKey := false, instGrpPairs := [], hasIdChangeTag := false,
    idChanges := [], deckCards := none, hasLibraryTag := false, libOwnerSeats := [],
    libInstanceIds := none, commandZones := [], handZones := [], gameObjects := [],
    greMessages := none, reservedPlayers := none }

/-- A catalog in which the full name `"X /// A"` is itself a face of the
full name `"X /// A // B"` (splitting on `' // '`, which is tested first). -/
def chainDb : List (Nat × CardInfo) :=
  [(10, ⟨"X /// A // B"⟩), (20, ⟨"X /// A"⟩), (30, ⟨"X"⟩)]

/-- A catalog holding one split card (canonical id 10) and its two halves. -/
def fireIceDb : List (Nat × CardInfo) :=
  [(10, ⟨"Fire // Ice"⟩), (11, ⟨"Fire"⟩), (12, ⟨"Ice"⟩)]

/-- A one-card catalog (card id 900). -/
def oneCardDb : List (Nat × CardInfo) := [(900, ⟨"Some Card"⟩)]

/-- An `ObjectIdChanged` line renaming instance 499 to instance 500. -/
def idChangeLine : LogLine :=
  { emptyLine with hasIdChangeTag := true, idChanges := [(499, 500)] }

/-- The game object of the C2 scenario: `{instanceId:500, grpId:900,
zoneId:28, ownerSeatId:1}` (no visibility field). -/
def obj500 : GameObject :=
  { instanceId := some 500, grpId := some 900, ownerSeatId := some 1,
    zoneId := some 28, visibility := "" }

/-- A game-state line for the C2 scenario carrying `obj500`. -/
def obj500Line : LogLine :=
  { emptyLine with instGrpPairs := [(500, 900)], gameObjects := [obj500] }

/-- The final state of the C2 scenario: seat 1 resolved as the player,
identity change 499→500, then object 500 revealed on the battlefield. -/
def scenarioC2 : ParserState :=
  parseLines (initState oneCardDb 1) false [idChangeLine, obj500Line]

/-- One instance of the `"Fire"` half, in seat 1's hand. -/
def obj600 : GameObject :=
  { instanceId := some 600, grpId := some 11, ownerSeatId := some 1,
    zoneId := some 31, visibility := "Visibility_Public" }

/-- One instance of the `"Ice"` half, in seat 1's hand. -/
def obj601 : GameObject :=
  { instanceId := some 601, grpId := some 12, ownerSeatId := some 1,
    zoneId := some 31, visibility := "Visibility_Public" }

/-- A line for the C4 scenario: a hand snapshot `[600, 601]` for seat 1
and the two half-card objects in zone 31. -/
def fireIceLine : LogLine :=
  { emptyLine with handZones := [(31, 1, [600, 601])], gameObjects := [obj600, obj601] }

/-- The final state of the C4 scenario. -/
def scenarioC4 : ParserState :=
  parseLines (initState fireIceDb 1) false [fireIceLine]

/-- A library-zone observation line for the opponent's seat (seat 2)
listing `n` object instance ids. -/
def libLine (n : Nat) : LogLine :=
  { emptyLine with hasLibraryTag := true, libOwnerSeats := [2], libInstanceIds := some (List.range n) }

/-- The final state of the C7 scenario: library sizes 60, 58, 60 observed. -/
def scenarioC7 : ParserState :=
  List.foldl processLine (initState [] 1) [libLine 60, libLine 58, libLine 60]

/-- An opponent-owned object observed only with non-public visibility. -/
def objHidden : GameObject :=
  { instanceId := some 700, grpId := some 900, ownerSeatId := some 2,
    zoneId := some 35, visibility := "Visibility_Private" }

/-- A `deckMessage` line listing `deckCards = [101, 101, 205]`. -/
def deckMsgLine : LogLine :=
  { emptyLine with deckCards := some [101, 101, 205] }

/-- A state whose only tracked instance sits in the library (zone 30),
valid via an identity change 699→700 so that only the zone filter can
exclude it. -/
def libraryOnlyState : ParserState :=
  { initState oneCardDb 1 with instance_locations := [(700, ⟨900, some 30, some 1, "Visibility_Public"⟩)], instance_id_map := [(699, 700)] }

/-- The opponent-library observation a line yields in
`_extract_opponent_deck_size`: the number of listed object instance ids,
when the `ZoneType_Library` guard, the owner-seat regex for the opponent's
seat, and the `objectInstanceIds` regex all succeed. -/
def libObs (opp : Nat) (l : LogLine) : Option Nat :=
  if !l.hasLibraryTag then none
  else if opp ∈ l.libOwnerSeats then l.libInstanceIds.map List.length
  else none

/-- All opponent-library size observations of a scan, in order. -/
def libObsSizes (opp : Nat) (lines : List LogLine) : List Nat :=
  lines.filterMap (libObs opp)

/-! ## Association-list (Python dict) lemmas -/

theorem dlookup_nil {κ α : Type} [BEq κ] (k : κ) : dlookup ([] : List (κ × α)) k = none := rfl

theorem dlookup_cons {κ α : Type} [BEq κ] (p : κ × α) (l : List (κ × α)) (k : κ) :
    dlookup (p :: l) k = if p.1 == k then some p.2 else dlookup l k := by
  by_cases h : p.1 == k
  · simp [dlookup, List.find?_cons_of_pos, h]
  · simp [dlookup, List.find?_cons_of_neg, h]

theorem dlookup_mem {κ α : Type} [BEq κ] [LawfulBEq κ] {l : List (κ × α)} {k : κ} {v : α}
    (h : dlookup l k = some v) : (k, v) ∈ l := by
  induction l with
  | nil => simp [dlookup_nil] at h
  | cons p rest ih =>
    obtain ⟨a, b⟩ := p
    rw [dlookup_cons] at h
    by_cases hp : a == k
    · rw [if_pos hp] at h
      have h1 : a = k := by simpa using hp
      have h2 : b = v := by simpa using h
      rw [h1, h2]
      exact List.mem_cons_self _ _
    · rw [if_neg hp] at h
      exact List.mem_cons_of_mem _ (ih h)

theorem dlookup_eq_none_not_mem {κ α : Type} [BEq κ] [LawfulBEq κ] {l : List (κ × α)} {k : κ}
    {v : α} (h : dlookup l k = none) : (k, v) ∉ l := by
  induction l with
  | nil => simp
  | cons p rest ih =>
    rw [dlookup_cons] at h
    by_cases hp : p.1 == k
    · rw [if_pos hp] at h; exact absurd h (by simp)
    · rw [if_neg hp] at h
      intro hm
      rcases List.mem_cons.mp hm with h1 | h1
      · rw [← h1] at hp; simp at hp
      · exact ih h h1

theorem mem_dset {κ α : Type} [BEq κ] {l : List (κ × α)} {k : κ} {v : α} {p : κ × α}
    (h : p ∈ dset l k v) : p = (k, v) ∨ p ∈ l := by
  unfold dset at h
  by_cases hf : (l.find? (fun q => q.1 == k)).isSome
  · rw [if_pos hf] at h
    rcases List.mem_map.mp h with ⟨q, hq, hqe⟩
    by_cases hqk : q.1 == k
    · rw [if_pos hqk] at hqe; left; exact hqe.symm
    · rw [if_neg hqk] at hqe; right; rw [← hqe]; exact hq
  · rw [if_neg hf] at h
    rcases List.mem_append.mp h with h1 | h1
    · right; exact h1
    · left; simpa using h1

theorem dlookup_map_set_self {κ α : Type} [BEq κ] [LawfulBEq κ] {l : List (κ × α)} {k : κ}
    (v : α) (h : ∃ q ∈ l, (q.1 == k) = true) :
    dlookup (l.map (fun p => if p.1 == k then (k, v) else p)) k = some v := by
  induction l with
  | nil => simp at h
  | cons q rest ih =>
    by_cases hq : q.1 == k
    · simp only [List.map_cons, if_pos hq, dlookup_cons]
      simp
    · simp only [List.map_cons, if_neg hq, dlookup_cons, if_neg hq]
      rcases h with ⟨x, hx, hxk⟩
      rcases List.mem_cons.mp hx with h1 | h1
      · rw [h1] at hxk; exact absurd hxk hq
      · exact ih ⟨x, h1, hxk⟩

theorem dlookup_append_single_self {κ α : Type} [BEq κ] [LawfulBEq κ] {l : List (κ × α)}
    {k : κ} (v : α) (h : ∀ q ∈ l, ¬(q.1 == k) = true) :
    dlookup (l ++ [(k, v)]) k = some v := by
  induction l with
  | nil => simp [dlookup_cons]
  | cons q rest ih =>
    rw [List.cons_append, dlookup_cons, if_neg (h q (List.mem_cons_self q rest))]
    exact ih (fun x hx => h x (List.mem_cons_of_mem q hx))

theorem dlookup_dset_self {κ α : Type} [BEq κ] [LawfulBEq κ] (l : List (κ × α)) (k : κ) (v : α) :
    dlookup (dset l k v) k = some v := by
  unfold dset
  by_cases hf : (l.find? (fun q => q.1 == k)).isSome
  · rw [if_pos hf]
    exact dlookup_map_set_self v (List.find?_isSome.mp hf)
  · rw [if_neg hf]
    refine dlookup_append_single_self v (fun q hq hqk => hf ?_)
    exact List.find?_isSome.mpr ⟨q, hq, hqk⟩

theorem dlookup_map_set_ne {κ α : Type} [BEq κ] [LawfulBEq κ] (l : List (κ × α)) (k k' : κ)
    (v : α) (hne : k' ≠ k) :
    dlookup (l.map (fun p => if p.1 == k then (k, v) else p)) k' = dlookup l k' := by
  induction l with
  | nil => rfl
  | cons q rest ih =>
    by_cases hq : q.1 == k
    · have hq1 : q.1 = k := by simpa using hq
      simp only [List.map_cons, if_pos hq, dlookup_cons]
      have h1 : ¬((k, v).1 == k') = true := by simp [Ne.symm hne]
      have h2 : ¬(q.1 == k') = true := by simp [hq1, Ne.symm hne]
      rw [if_neg h1, if_neg h2, ih]
    · simp only [List.map_cons, if_neg hq, dlookup_cons, ih]

theorem dlookup_append_single_ne {κ α : Type} [BEq κ] [LawfulBEq κ] (l : List (κ × α))
    (k k' : κ) (v : α) (hne : k' ≠ k) : dlookup (l ++ [(k, v)]) k' = dlookup l k' := by
  induction l with
  | nil =>
    simp only [List.nil_append, dlookup_cons, dlookup_nil]
    rw [if_neg (by simp [Ne.symm hne])]
  | cons q rest ih =>
    rw [List.cons_append, dlookup_cons, dlookup_cons, ih]

theorem dlookup_dset_ne {κ α : Type} [BEq κ] [LawfulBEq κ] (l : List (κ × α)) (k k' : κ)
    (v : α) (hne : k' ≠ k) : dlookup (dset l k v) k' = dlookup l k' := by
  unfold dset
  by_cases hf : (l.find? (fun q => q.1 == k)).isSome
  · rw [if_pos hf]; exact dlookup_map_set_ne l k k' v hne
  · rw [if_neg hf]; exact dlookup_append_single_ne l k k' v hne

/-! ## Which state fields each extractor can write -/

theorem foldl_proj {σ β γ : Type} {f : σ → β → σ} {proj : σ → γ}
    (h : ∀ s b, proj (f s b) = proj s) (l : List β) (s : σ) :
    proj (List.foldl f s l) = proj s := by
  induction l generalizing s with
  | nil => rfl
  | cons b rest ih => rw [List.foldl_cons, ih, h]


theorem buildInstanceMappings_eq (st : ParserState) (l : LogLine) :
    buildInstanceMappings st l = { st with instance_to_grp := (buildInstanceMappings st l).instance_to_grp } := by
  unfold buildInstanceMappings
  generalize l.instGrpPairs = pairs
  induction pairs generalizing st with
  | nil => rfl
  | cons p rest ih =>
    rw [List.foldl_cons]
    conv_lhs => rw [ih]
    split <;> rfl

theorem processIdChanges_eq (st : ParserState) (l : LogLine) :
    processIdChanges st l = { st with instance_id_map := (processIdChanges st l).instance_id_map, instance_to_grp := (processIdChanges st l).instance_to_grp } := by
  unfold processIdChanges
  split
  · rfl
  · generalize l.idChanges = changes
    induction changes generalizing st with
    | nil => rfl
    | cons p rest ih =>
      rw [List.foldl_cons]
      conv_lhs => rw [ih]
      dsimp only
      cases dlookup st.instance_to_grp p.1 <;> rfl

theorem extractPlayerDeck_eq (st : ParserState) (l : LogLine) :
    extractPlayerDeck st l = { st with player_deck := (extractPlayerDeck st l).player_deck } := by
  unfold extractPlayerDeck
  cases l.deckCards <;> rfl

theorem extractOpponentDeckSize_eq (st : ParserState) (l : LogLine) :
    extractOpponentDeckSize st l = { st with opponent_deck_size := (extractOpponentDeckSize st l).opponent_deck_size } := by
  unfold extractOpponentDeckSize
  split
  · rfl
  · split
    · cases l.libInstanceIds
      · rfl
      · dsimp only
        split <;> rfl
    · rfl

theorem extractCommanders_eq (st : ParserState) (l : LogLine) :
    extractCommanders st l = { st with player_commander := (extractCommanders st l).player_commander, opponent_commander := (extractCommanders st l).opponent_commander } := by
  unfold extractCommanders
  generalize l.commandZones = zones
  induction zones generalizing st with
  | nil => rfl
  | cons z rest ih =>
    rw [List.foldl_cons]
    conv_lhs => rw [ih]
    split
    · rfl
    · generalize z.2 = insts
      induction insts generalizing st with
      | nil => rfl
      | cons i irest iih =>
        rw [List.foldl_cons]
        conv_lhs => rw [iih]
        cases dlookup st.instance_to_grp i
        · rfl
        · repeat' split
          all_goals rfl

theorem extractHandZones_eq (st : ParserState) (l : LogLine) :
    extractHandZones st l = { st with final_player_hand := (extractHandZones st l).final_player_hand, final_opponent_hand := (extractHandZones st l).final_opponent_hand } := by
  unfold extractHandZones
  generalize l.handZones = zones
  induction zones generalizing st with
  | nil => rfl
  | cons z rest ih =>
    rw [List.foldl_cons]
    conv_lhs => rw [ih]
    repeat' split
    all_goals rfl

theorem trackObject_eq (st : ParserState) (obj : GameObject) :
    trackObject st obj = { st with instance_locations := (trackObject st obj).instance_locations, player_commander := (trackObject st obj).player_commander, opponent_commander := (trackObject st obj).opponent_commander } := by
  unfold trackObject
  cases obj.instanceId with
  | none => cases obj.grpId <;> rfl
  | some iid =>
    cases obj.grpId with
    | none => rfl
    | some gid =>
      dsimp only
      repeat' split
      all_goals rfl


/-! ## Projection corollaries: fields an extractor leaves unchanged -/

theorem bim_pseat (st : ParserState) (l : LogLine) :
    (buildInstanceMappings st l).player_seat_id = st.player_seat_id := by
  rw [buildInstanceMappings_eq st l]

theorem bim_oseat (st : ParserState) (l : LogLine) :
    (buildInstanceMappings st l).opponent_seat_id = st.opponent_seat_id := by
  rw [buildInstanceMappings_eq st l]

theorem bim_deck (st : ParserState) (l : LogLine) :
    (buildInstanceMappings st l).player_deck = st.player_deck := by
  rw [buildInstanceMappings_eq st l]

theorem bim_size (st : ParserState) (l : LogLine) :
    (buildInstanceMappings st l).opponent_deck_size = st.opponent_deck_size := by
  rw [buildInstanceMappings_eq st l]

theorem pic_pseat (st : ParserState) (l : LogLine) :
    (processIdChanges st l).player_seat_id = st.player_seat_id := by
  rw [processIdChanges_eq st l]

theorem pic_oseat (st : ParserState) (l : LogLine) :
    (processIdChanges st l).opponent_seat_id = st.opponent_seat_id := by
  rw [processIdChanges_eq st l]

theorem pic_deck (st : ParserState) (l : LogLine) :
    (processIdChanges st l).player_deck = st.player_deck := by
  rw [processIdChanges_eq st l]

theorem pic_size (st : ParserState) (l : LogLine) :
    (processIdChanges st l).opponent_deck_size = st.opponent_deck_size := by
  rw [processIdChanges_eq st l]

theorem epd_pseat (st : ParserState) (l : LogLine) :
    (extractPlayerDeck st l).player_seat_id = st.player_seat_id := by
  rw [extractPlayerDeck_eq st l]

theorem epd_oseat (st : ParserState) (l : LogLine) :
    (extractPlayerDeck st l).opponent_seat_id = st.opponent_seat_id := by
  rw [extractPlayerDeck_eq st l]

theorem epd_size (st : ParserState) (l : LogLine) :
    (extractPlayerDeck st l).opponent_deck_size = st.opponent_deck_size := by
  rw [extractPlayerDeck_eq st l]

theorem eods_pseat (st : ParserState) (l : LogLine) :
    (extractOpponentDeckSize st l).player_seat_id = st.player_seat_id := by
  rw [extractOpponentDeckSize_eq st l]

theorem eods_oseat (st : ParserState) (l : LogLine) :
    (extractOpponentDeckSize st l).opponent_seat_id = st.opponent_seat_id := by
  rw [extractOpponentDeckSize_eq st l]

theorem eods_deck (st : ParserState) (l : LogLine) :
    (extractOpponentDeckSize st l).player_deck = st.player_deck := by
  rw [extractOpponentDeckSize_eq st l]

theorem ec_pseat (st : ParserState) (l : LogLine) :
    (extractCommanders st l).player_seat_id = st.player_seat_id := by
  rw [extractCommanders_eq st l]

theorem ec_oseat (st : ParserState) (l : LogLine) :
    (extractCommanders st l).opponent_seat_id = st.opponent_seat_id := by
  rw [extractCommanders_eq st l]

theorem ec_deck (st : ParserState) (l : LogLine) :
    (extractCommanders st l).player_deck = st.player_deck := by
  rw [extractCommanders_eq st l]

theorem ec_size (st : ParserState) (l : LogLine) :
    (extractCommanders st l).opponent_deck_size = st.opponent_deck_size := by
  rw [extractCommanders_eq st l]

theorem ehz_pseat (st : ParserState) (l : LogLine) :
    (extractHandZones st l).player_seat_id = st.player_seat_id := by
  rw [extractHandZones_eq st l]

theorem ehz_oseat (st : ParserState) (l : LogLine) :
    (extractHandZones st l).opponent_seat_id = st.opponent_seat_id := by
  rw [extractHandZones_eq st l]

theorem ehz_deck (st : ParserState) (l : LogLine) :
    (extractHandZones st l).player_deck = st.player_deck := by
  rw [extractHandZones_eq st l]

theorem ehz_size (st : ParserState) (l : LogLine) :
    (extractHandZones st l).opponent_deck_size = st.opponent_deck_size := by
  rw [extractHandZones_eq st l]

theorem trackFold_pseat (objs : List GameObject) (st : ParserState) :
    (List.foldl trackObject st objs).player_seat_id = st.player_seat_id :=
  foldl_proj (fun s o => by rw [trackObject_eq s o]) objs st

theorem trackFold_oseat (objs : List GameObject) (st : ParserState) :
    (List.foldl trackObject st objs).opponent_seat_id = st.opponent_seat_id :=
  foldl_proj (fun s o => by rw [trackObject_eq s o]) objs st

theorem trackFold_deck (objs : List GameObject) (st : ParserState) :
    (List.foldl trackObject st objs).player_deck = st.player_deck :=
  foldl_proj (fun s o => by rw [trackObject_eq s o]) objs st

theorem trackFold_size (objs : List GameObject) (st : ParserState) :
    (List.foldl trackObject st objs).opponent_deck_size = st.opponent_deck_size :=
  foldl_proj (fun s o => by rw [trackObject_eq s o]) objs st

theorem trackFold_split (objs : List GameObject) (st : ParserState) :
    (List.foldl trackObject st objs).split_card_grp_map = st.split_card_grp_map :=
  foldl_proj (fun s o => by rw [trackObject_eq s o]) objs st

theorem trackFold_idmap (objs : List GameObject) (st : ParserState) :
    (List.foldl trackObject st objs).instance_id_map = st.instance_id_map :=
  foldl_proj (fun s o => by rw [trackObject_eq s o]) objs st

theorem trackFold_phand (objs : List GameObject) (st : ParserState) :
    (List.foldl trackObject st objs).final_player_hand = st.final_player_hand :=
  foldl_proj (fun s o => by rw [trackObject_eq s o]) objs st

theorem trackFold_ohand (objs : List GameObject) (st : ParserState) :
    (List.foldl trackObject st objs).final_opponent_hand = st.final_opponent_hand :=
  foldl_proj (fun s o => by rw [trackObject_eq s o]) objs st


/-! ## Value lemmas for the deck extractors, and `processLine` composition -/

theorem deck_foldl_count (cards : List Nat) (d : Nat → Nat) (g : Nat) :
    (List.foldl (fun d c => fun x => if x = c then d x + 1 else d x) d cards) g =
      d g + cards.count g := by
  induction cards generalizing d with
  | nil => simp
  | cons c rest ih =>
    rw [List.foldl_cons, ih, List.count_cons]
    by_cases h : g = c
    · subst h; simp; omega
    · have hc : ¬(c == g) = true := by simp [Ne.symm h]
      simp [h, hc]

theorem extractPlayerDeck_deck (st : ParserState) (l : LogLine) (g : Nat) :
    (extractPlayerDeck st l).player_deck g = st.player_deck g + (l.deckCards.getD []).count g := by
  unfold extractPlayerDeck
  cases hd : l.deckCards with
  | none => simp
  | some cards =>
    dsimp only
    rw [deck_foldl_count]
    simp

theorem extractOpponentDeckSize_size (st : ParserState) (l : LogLine) :
    (extractOpponentDeckSize st l).opponent_deck_size =
      match libObs st.opponent_seat_id l with
      | some n => max st.opponent_deck_size n
      | none => st.opponent_deck_size := by
  unfold extractOpponentDeckSize libObs
  by_cases h1 : !l.hasLibraryTag
  · rw [if_pos h1, if_pos h1]
  · rw [if_neg h1, if_neg h1]
    by_cases h2 : st.opponent_seat_id ∈ l.libOwnerSeats
    · rw [if_pos h2, if_pos h2]
      cases l.libInstanceIds with
      | none => rfl
      | some ids =>
        dsimp only [Option.map]
        split
        · rename_i hgt
          rw [Nat.max_eq_right (Nat.le_of_lt hgt)]
        · rename_i hle
          rw [Nat.max_eq_left (Nat.le_of_not_lt hle)]
    · rw [if_neg h2, if_neg h2]

theorem processLine_pseat (st : ParserState) (l : LogLine) :
    (processLine st l).player_seat_id = st.player_seat_id := by
  unfold processLine trackInstanceLocations
  rw [trackFold_pseat, ehz_pseat, ec_pseat, eods_pseat, epd_pseat, pic_pseat, bim_pseat]

theorem processLine_oseat (st : ParserState) (l : LogLine) :
    (processLine st l).opponent_seat_id = st.opponent_seat_id := by
  unfold processLine trackInstanceLocations
  rw [trackFold_oseat, ehz_oseat, ec_oseat, eods_oseat, epd_oseat, pic_oseat, bim_oseat]

theorem processLine_deck (st : ParserState) (l : LogLine) (g : Nat) :
    (processLine st l).player_deck g = st.player_deck g + (l.deckCards.getD []).count g := by
  unfold processLine trackInstanceLocations
  rw [trackFold_deck, ehz_deck, ec_deck, eods_deck, extractPlayerDeck_deck, pic_deck, bim_deck]

theorem processLine_size (st : ParserState) (l : LogLine) :
    (processLine st l).opponent_deck_size =
      match libObs st.opponent_seat_id l with
      | some n => max st.opponent_deck_size n
      | none => st.opponent_deck_size := by
  unfold processLine trackInstanceLocations
  rw [trackFold_size, ehz_size, ec_size, extractOpponentDeckSize_size, epd_size, pic_size,
    bim_size, epd_oseat, pic_oseat, bim_oseat]

theorem foldl_max_shift (l : List Nat) (a : Nat) : ∀ b : Nat,
    List.foldl max (max a b) l = max a (List.foldl max b l) := by
  induction l with
  | nil => intro b; rfl
  | cons c rest ih =>
    intro b
    rw [List.foldl_cons, List.foldl_cons, Nat.max_assoc, ih]

theorem scan_size (lines : List LogLine) : ∀ st : ParserState,
    (List.foldl processLine st lines).opponent_deck_size =
      max st.opponent_deck_size
        (List.foldl max 0 (libObsSizes st.opponent_seat_id lines)) := by
  induction lines with
  | nil => intro st; exact (Nat.max_zero _).symm
  | cons l rest ih =>
    intro st
    rw [List.foldl_cons, ih, processLine_size, processLine_oseat]
    unfold libObsSizes
    rw [List.filterMap_cons]
    cases ho : libObs st.opponent_seat_id l with
    | none => rfl
    | some n =>
      dsimp only
      rw [List.foldl_cons]
      have h1 : max 0 n = n := by omega
      have h2 : List.foldl max n (List.filterMap (libObs st.opponent_seat_id) rest) =
          max n (List.foldl max 0 (List.filterMap (libObs st.opponent_seat_id) rest)) := by
        have := foldl_max_shift (List.filterMap (libObs st.opponent_seat_id) rest) n 0
        rwa [Nat.max_zero] at this
      rw [h1, h2, Nat.max_assoc]


/-! ## Claim theorems -/

/-- **C10.** For every match-scoped line carrying a `deckMessage` with a
parsed `deckCards` list, every id in the list is added to `player_deck`
with its multiplicity, with no card-catalog membership check and no
split-card normalization (the count accrues under the raw id even when the
id is absent from the catalog and is a split-half key of the split map);
and when two such lines occur, the counts of both accumulate in
`player_deck` rather than the later list replacing the earlier one. -/
theorem c10_deck_accumulates :
    (∀ (st : ParserState) (l : LogLine) (cards : List Nat) (g : Nat),
        l.deckCards = some cards →
        (extractPlayerDeck st l).player_deck g = st.player_deck g + cards.count g)
    ∧ (∀ (st : ParserState) (l : LogLine) (cards : List Nat) (g : Nat),
        l.deckCards = some cards → dlookup st.card_db g = none →
        (dlookup st.split_card_grp_map g).isSome →
        (extractPlayerDeck st l).player_deck g = st.player_deck g + cards.count g)
    ∧ (∀ (st : ParserState) (l1 l2 : LogLine) (c1 c2 : List Nat) (g : Nat),
        l1.deckCards = some c1 → l2.deckCards = some c2 →
        (processLine (processLine st l1) l2).player_deck g =
          st.player_deck g + c1.count g + c2.count g) := by
  refine ⟨?_, ?_, ?_⟩
  · intro st l cards g hd
    rw [extractPlayerDeck_deck, hd]
    rfl
  · intro st l cards g hd _ _
    rw [extractPlayerDeck_deck, hd]
    rfl
  · intro st l1 l2 c1 c2 g h1 h2
    rw [processLine_deck, processLine_deck, h1, h2]
    rfl

/-- Witness for C10 at concrete inputs (spec scenario `deckCards=[101,101,205]`). -/
theorem c10_deck_accumulates_witness :
    ((extractPlayerDeck (initState [] 1) deckMsgLine).player_deck 101 =
        (initState [] 1).player_deck 101 + ([101, 101, 205] : List Nat).count 101)
    ∧ ((extractPlayerDeck { initState [] 1 with split_card_grp_map := [(101, 7)] } deckMsgLine).player_deck 101 =
        ({ initState [] 1 with split_card_grp_map := [(101, 7)] } : ParserState).player_deck 101 +
          ([101, 101, 205] : List Nat).count 101)
    ∧ ((processLine (processLine (initState [] 1) deckMsgLine) deckMsgLine).player_deck 101 =
        (initState [] 1).player_deck 101 + ([101, 101, 205] : List Nat).count 101 +
          ([101, 101, 205] : List Nat).count 101) :=
  ⟨c10_deck_accumulates.1 (initState [] 1) deckMsgLine [101, 101, 205] 101 rfl,
   c10_deck_accumulates.2.1 { initState [] 1 with split_card_grp_map := [(101, 7)] }
     deckMsgLine [101, 101, 205] 101 rfl (by decide) (by decide),
   c10_deck_accumulates.2.2 (initState [] 1) deckMsgLine deckMsgLine
     [101, 101, 205] [101, 101, 205] 101 rfl rfl⟩

/-- **C7.** `opponent_deck_size` equals the maximum, over all opponent
library-zone observations of the scan, of the number of object instance ids
listed (the update applies only when strictly larger, i.e. it is the running
maximum); it starts at 0 and remains 0 when no observation occurs; and the
spec example with observations of sizes 60, 58, 60 yields 60. -/
theorem c7_opponent_deck_size_max :
    (∀ (st : ParserState) (lines : List LogLine),
        (List.foldl processLine st lines).opponent_deck_size =
          max st.opponent_deck_size
            (List.foldl max 0 (libObsSizes st.opponent_seat_id lines)))
    ∧ (∀ (db : List (Nat × CardInfo)) (p : Nat) (lines : List LogLine),
        libObsSizes (initState db p).opponent_seat_id lines = [] →
        (List.foldl processLine (initState db p) lines).opponent_deck_size = 0)
    ∧ (initState [] 1).opponent_deck_size = 0
    ∧ scenarioC7.opponent_deck_size = 60 := by
  refine ⟨fun st lines => scan_size lines st, ?_, rfl, by decide⟩
  intro db p lines h
  rw [scan_size, h]
  rfl

/-- Witness for C7, discharging the no-observation hypothesis at a
concrete scan. -/
theorem c7_opponent_deck_size_max_witness :
    (List.foldl processLine (initState [] 1) [emptyLine]).opponent_deck_size = 0 :=
  c7_opponent_deck_size_max.2.1 [] 1 [emptyLine] (by decide)

/-- **C8.** The main scan is scoped to the requested match by literal
substring tests: every line before the first line containing the match-id
token changes no state (the scan skips it), and once the match has started,
the first line containing the `'matchId'` substring but not the token stops
the scan, returning the state accumulated so far — so no line at or past
that boundary affects any tracker state or the final output mappings. -/
theorem c8_scan_scoped :
    (∀ (st : ParserState) (pre rest : List LogLine),
        (∀ l ∈ pre, l.hasToken = false) →
        parseLines st false (pre ++ rest) = parseLines st false rest)
    ∧ (∀ (st : ParserState) (l : LogLine) (rest : List LogLine),
        l.hasMatchIdKey = true → l.hasToken = false →
        parseLines st true (l :: rest) = st) := by
  constructor
  · intro st pre rest hpre
    induction pre with
    | nil => rfl
    | cons l pre ih =>
      have h := hpre l (List.mem_cons_self l pre)
      rw [List.cons_append]
      rw [parseLines, h]
      simp only [Bool.false_eq_true, if_false, Bool.not_false, if_true]
      exact ih (fun x hx => hpre x (List.mem_cons_of_mem l hx))
  · intro st l rest h1 h2
    rw [parseLines, h1, h2]
    simp

/-- Witness for C8 at a concrete scan: a pre-match line is ignored, and a
boundary line of a different match stops the scan. -/
theorem c8_scan_scoped_witness :
    (parseLines (initState [] 1) false
        ([{ emptyLine with hasToken := false }] ++ [emptyLine]) =
      parseLines (initState [] 1) false [emptyLine])
    ∧ parseLines (initState [] 1) true
        ({ emptyLine with hasToken := false, hasMatchIdKey := true } :: [emptyLine]) =
      initState [] 1 :=
  ⟨c8_scan_scoped.1 (initState [] 1) [{ emptyLine with hasToken := false }] [emptyLine]
      (by intro l hl; simp at hl; rw [hl]),
   c8_scan_scoped.2 (initState [] 1) { emptyLine with hasToken := false, hasMatchIdKey := true }
      [emptyLine] rfl rfl⟩

/-- **C6.** Seat resolution always succeeds (it is a total function): the
connect-response strategy (first match-scoped `greToClientEvent` message
whose `systemSeatIds` has exactly one entry) wins when it yields a seat;
otherwise the first `reservedPlayers` entry's seat is used; otherwise the
result defaults to 1.  The opponent seat is always the other of the two
fixed values: 2 when the player seat is 1, otherwise 1. -/
theorem c6_seat_resolution :
    (∀ (lines : List LogLine) (s : Nat),
        detectSeatFromConnectResp lines = some s → detectPlayerSeat lines = s)
    ∧ (∀ (lines : List LogLine) (s : Nat),
        detectSeatFromConnectResp lines = none →
        detectSeatFromReservedPlayers lines = some s → detectPlayerSeat lines = s)
    ∧ (∀ lines : List LogLine,
        detectSeatFromConnectResp lines = none →
        detectSeatFromReservedPlayers lines = none → detectPlayerSeat lines = 1)
    ∧ (∀ p : Nat, opponentSeatOf p = if p = 1 then 2 else 1)
    ∧ (∀ p : Nat, opponentSeatOf p ≠ p ∧ (opponentSeatOf p = 1 ∨ opponentSeatOf p = 2)) := by
  refine ⟨?_, ?_, ?_, fun p => rfl, ?_⟩
  · intro lines s h
    unfold detectPlayerSeat
    rw [h]
  · intro lines s h1 h2
    unfold detectPlayerSeat
    rw [h1, h2]
  · intro lines h1 h2
    unfold detectPlayerSeat
    rw [h1, h2]
  · intro p
    unfold opponentSeatOf
    by_cases h : p = 1
    · subst h; exact ⟨by simp, by simp⟩
    · rw [if_neg h]
      exact ⟨fun he => h he.symm, Or.inl rfl⟩

/-- Witness for C6 at concrete logs: a singleton `systemSeatIds` message
resolves the seat, the reserved-players fallback resolves it when the first
strategy fails, and an empty log defaults to seat 1. -/
theorem c6_seat_resolution_witness :
    detectPlayerSeat [{ emptyLine with greMessages := some [[2]] }] = 2
    ∧ detectPlayerSeat [{ emptyLine with reservedPlayers := some [(some 2, "Opp")] }] = 2
    ∧ detectPlayerSeat [] = 1 :=
  ⟨c6_seat_resolution.1 [{ emptyLine with greMessages := some [[2]] }] 2 rfl,
   c6_seat_resolution.2.1 [{ emptyLine with reservedPlayers := some [(some 2, "Opp")] }] 2 rfl rfl,
   c6_seat_resolution.2.2.1 [] rfl rfl⟩


/-! ## Counting helpers -/

theorem filter_erase_of_fail {α : Type} (l : List (Nat × α)) (q : Nat × α → Bool) (i : Nat)
    (h : ∀ p ∈ l, p.1 = i → q p = false) :
    (l.filter (fun p => !(p.1 == i))).filter q = l.filter q := by
  induction l with
  | nil => rfl
  | cons p rest ih =>
    have hrest := ih (fun x hx => h x (List.mem_cons_of_mem p hx))
    by_cases hp : p.1 = i
    · have hq := h p (List.mem_cons_self p rest) hp
      have h1 : ¬((!(p.1 == i)) = true) := by simp [hp]
      have h2 : ¬(q p = true) := by simp [hq]
      rw [show (p :: rest).filter (fun p => !(p.1 == i)) = rest.filter (fun p => !(p.1 == i)) from
            by rw [List.filter_cons, if_neg h1],
          show (p :: rest).filter q = rest.filter q from by rw [List.filter_cons, if_neg h2]]
      exact hrest
    · have h1 : (!(p.1 == i)) = true := by simp [hp]
      rw [show (p :: rest).filter (fun p => !(p.1 == i)) = p :: rest.filter (fun p => !(p.1 == i)) from
            by rw [List.filter_cons, if_pos h1]]
      rw [List.filter_cons, List.filter_cons, hrest]

theorem instanceFinalLocation_congr (st st' : ParserState)
    (h1 : st'.instance_locations = st.instance_locations)
    (h2 : st'.instance_id_map = st.instance_id_map)
    (h3 : st'.final_player_hand = st.final_player_hand)
    (h4 : st'.final_opponent_hand = st.final_opponent_hand) :
    instanceFinalLocation st' = instanceFinalLocation st := by
  unfold instanceFinalLocation obsoleteInstances validInstances instancesWithHistory
  rw [h1, h2, h3, h4]

theorem countRevealedCards_congr (st st' : ParserState)
    (hl : instanceFinalLocation st' = instanceFinalLocation st)
    (hs : st'.split_card_grp_map = st.split_card_grp_map)
    (hp : st'.player_seat_id = st.player_seat_id)
    (ho : st'.opponent_seat_id = st.opponent_seat_id) :
    countRevealedCards st' = countRevealedCards st := by
  unfold countRevealedCards zoneCardKeys numCopies
  rw [hl, hs, hp, ho]

/-- An instance id all of whose location entries fail the counted filter
contributes nothing: erasing it leaves both output mappings unchanged. -/
theorem count_erase_of_fail (st : ParserState) (i : Nat)
    (h : ∀ p ∈ st.instance_locations, p.1 = i →
        (!(p.1 ∈ obsoleteInstances st) && (p.1 ∈ validInstances st)
          && zoneRelevant p.2.zone) = false) :
    countRevealedCards (eraseInstance st i) = countRevealedCards st := by
  apply countRevealedCards_congr
  · unfold instanceFinalLocation eraseInstance
    exact filter_erase_of_fail st.instance_locations _ i h
  · rfl
  · rfl
  · rfl

theorem trackObject_pseat (st : ParserState) (o : GameObject) :
    (trackObject st o).player_seat_id = st.player_seat_id := by
  rw [trackObject_eq st o]

/-- An object failing the visibility test is not tracked. -/
theorem trackObject_hidden (st : ParserState) (o : GameObject)
    (hv : o.visibility ≠ "Visibility_Public")
    (ho : o.ownerSeatId ≠ some st.player_seat_id) :
    (trackObject st o).instance_locations = st.instance_locations := by
  unfold trackObject
  cases o.instanceId with
  | none => cases o.grpId <;> rfl
  | some iid =>
    cases o.grpId with
    | none => rfl
    | some gid =>
      dsimp only
      repeat' split
      all_goals first
        | rfl
        | (rename_i hc; exact absurd hc (not_or.mpr ⟨hv, ho⟩))

/-- A single identity-change event propagates a known CardId forward. -/
theorem pic_propagate (st : ParserState) (l : LogLine) (a b g : Nat)
    (h1 : l.hasIdChangeTag = true) (h2 : l.idChanges = [(a, b)])
    (hg : dlookup st.instance_to_grp a = some g) :
    dlookup (processIdChanges st l).instance_to_grp b = some g := by
  unfold processIdChanges
  rw [h1, h2]
  simp only [Bool.not_true, Bool.false_eq_true, if_false, List.foldl_cons, List.foldl_nil]
  rw [hg]
  exact dlookup_dset_self _ _ _

theorem count_player_single (st : ParserState) (a : Nat) (ow zn : Option Nat)
    (hk : zoneCardKeys st = [(a, ow, zn)]) (g : Nat) (hg : g ≠ a) :
    (countRevealedCards st).1 g = 0 := by
  have he : (countRevealedCards st).1 g =
      (((zoneCardKeys st).filter
          (fun k => k.1 = g && (dlookup st.split_card_grp_map k.1).isNone
            && k.2.1 = some st.player_seat_id)).map (numCopies st)).sum := rfl
  rw [he, hk]
  have hne : ¬(a = g) := fun h => hg h.symm
  simp [hne]

theorem count_opp_single (st : ParserState) (a : Nat) (zn : Option Nat)
    (hk : zoneCardKeys st = [(a, some st.player_seat_id, zn)]) (g : Nat) :
    (countRevealedCards st).2 g = 0 := by
  have he : (countRevealedCards st).2 g =
      (((zoneCardKeys st).filter
          (fun k => k.1 = g && (dlookup st.split_card_grp_map k.1).isNone
            && !(k.2.1 = some st.player_seat_id)
            && k.2.1 = some st.opponent_seat_id)).map (numCopies st)).sum := rfl
  rw [he, hk]
  simp


/-- **C1.** Along identity chains recorded from `ObjectIdChanged`
annotations, a CardId known for the old id is propagated to the new id at
each change event (shown for one event and for a two-event chain a→b→c);
and the final count mappings never include a contribution from an instance
id that is a key of the identity chain: erasing an obsolete id's location
record leaves both output mappings unchanged. -/
theorem c1_identity_chain :
    (∀ (st : ParserState) (l : LogLine) (a b g : Nat),
        l.hasIdChangeTag = true → l.idChanges = [(a, b)] →
        dlookup st.instance_to_grp a = some g →
        dlookup (processIdChanges st l).instance_to_grp b = some g)
    ∧ (∀ (st : ParserState) (l1 l2 : LogLine) (a b c g : Nat),
        l1.hasIdChangeTag = true → l1.idChanges = [(a, b)] →
        l2.hasIdChangeTag = true → l2.idChanges = [(b, c)] →
        dlookup st.instance_to_grp a = some g →
        dlookup (processIdChanges (processIdChanges st l1) l2).instance_to_grp c = some g)
    ∧ (∀ (st : ParserState) (i : Nat),
        (dlookup st.instance_id_map i).isSome →
        countRevealedCards (eraseInstance st i) = countRevealedCards st) := by
  refine ⟨fun st l a b g h1 h2 hg => pic_propagate st l a b g h1 h2 hg,
    fun st l1 l2 a b c g h1 h2 h3 h4 hg =>
      pic_propagate _ l2 b c g h3 h4 (pic_propagate st l1 a b g h1 h2 hg), ?_⟩
  intro st i hi
  apply count_erase_of_fail
  intro p hp hpi
  rcases Option.isSome_iff_exists.mp hi with ⟨v, hv⟩
  have hmem : i ∈ obsoleteInstances st :=
    List.mem_map.mpr ⟨(i, v), dlookup_mem hv, rfl⟩
  rw [hpi]
  simp [hmem]

/-- Witness for C1: propagation through 499→500 and 500→501, and
erase-invariance for the obsolete id 499 of the C2 scenario state. -/
theorem c1_identity_chain_witness :
    dlookup (processIdChanges { initState oneCardDb 1 with instance_to_grp := [(499, 900)] } idChangeLine).instance_to_grp 500 = some 900
    ∧ dlookup (processIdChanges (processIdChanges { initState oneCardDb 1 with instance_to_grp := [(499, 900)] } idChangeLine) { emptyLine with hasIdChangeTag := true, idChanges := [(500, 501)] }).instance_to_grp 501 = some 900
    ∧ countRevealedCards (eraseInstance scenarioC2 499) = countRevealedCards scenarioC2 :=
  ⟨c1_identity_chain.1 _ idChangeLine 499 500 900 rfl rfl (by decide),
   c1_identity_chain.2.1 _ idChangeLine _ 499 500 501 900 rfl rfl rfl rfl (by decide),
   c1_identity_chain.2.2 scenarioC2 499 (by decide)⟩

/-- **C2.** A tracked instance contributes to an output mapping only if it
is valid (a value of the identity chain or present in a final hand
snapshot): erasing any invalid instance leaves both outputs unchanged.
The spec scenario — seat 1 the player, object `{instanceId:500, grpId:900,
zoneId:28, ownerSeatId:1}`, instance 500 the target of an identity change
from 499 — yields `player_cards = {900: 1}` and an empty opponent mapping. -/
theorem c2_valid_instances :
    (∀ (st : ParserState) (i : Nat), i ∉ validInstances st →
        countRevealedCards (eraseInstance st i) = countRevealedCards st)
    ∧ (countRevealedCards scenarioC2).1 900 = 1
    ∧ (∀ g : Nat, g ≠ 900 → (countRevealedCards scenarioC2).1 g = 0)
    ∧ (∀ g : Nat, (countRevealedCards scenarioC2).2 g = 0) := by
  refine ⟨?_, by decide, ?_, ?_⟩
  · intro st i hvi
    apply count_erase_of_fail
    intro p hp hpi
    rw [hpi]
    simp [hvi]
  · intro g hg
    exact count_player_single scenarioC2 900 (some 1) (some 28) (by decide) g hg
  · intro g
    exact count_opp_single scenarioC2 900 (some 28) (by decide) g

/-- Witness for C2: erasing the never-valid instance 700 of
`libraryOnlyState` changes nothing (700 is not a chain value and in no
hand), and the scenario count at a non-900 id is 0. -/
theorem c2_valid_instances_witness :
    countRevealedCards (eraseInstance { initState oneCardDb 1 with instance_locations := [(700, ⟨900, some 28, some 1, "Visibility_Public"⟩)] } 700) = countRevealedCards { initState oneCardDb 1 with instance_locations := [(700, ⟨900, some 28, some 1, "Visibility_Public"⟩)] }
    ∧ (countRevealedCards scenarioC2).1 901 = 0 :=
  ⟨c2_valid_instances.1 _ 700 (by decide),
   c2_valid_instances.2.2.1 901 (by decide)⟩

/-- **C3.** Only instance records whose recorded zone lies in
`relevant_zones = [28, 29, 31, 33, 35, 37]` can contribute: erasing an
instance all of whose records sit outside those zones changes nothing, a
state all of whose records sit outside them produces empty mappings, and
the zone table is exactly as specified (library 30 and command 32/34
excluded, the six counted zones included, a missing zone id excluded). -/
theorem c3_zone_filter :
    (∀ (st : ParserState) (i : Nat),
        (∀ p ∈ st.instance_locations, p.1 = i → zoneRelevant p.2.zone = false) →
        countRevealedCards (eraseInstance st i) = countRevealedCards st)
    ∧ (∀ st : ParserState, (∀ p ∈ st.instance_locations, zoneRelevant p.2.zone = false) →
        countRevealedCards st = (fun _ => 0, fun _ => 0))
    ∧ relevantZones = [28, 29, 31, 33, 35, 37]
    ∧ zoneRelevant (some 30) = false ∧ zoneRelevant (some 32) = false
    ∧ zoneRelevant (some 34) = false ∧ zoneRelevant (some 28) = true
    ∧ zoneRelevant (some 29) = true ∧ zoneRelevant (some 31) = true
    ∧ zoneRelevant (some 33) = true ∧ zoneRelevant (some 35) = true
    ∧ zoneRelevant (some 37) = true ∧ zoneRelevant none = false := by
  refine ⟨?_, ?_, rfl, by decide, by decide, by decide, by decide, by decide, by decide,
    by decide, by decide, by decide, rfl⟩
  · intro st i hz
    apply count_erase_of_fail
    intro p hp hpi
    rw [hz p hp hpi, Bool.and_false]
  · intro st h
    have hifl : instanceFinalLocation st = [] := by
      unfold instanceFinalLocation
      rw [List.filter_eq_nil_iff]
      intro p hp
      simp [h p hp]
    unfold countRevealedCards zoneCardKeys numCopies
    rw [hifl]
    rfl

/-- Witness for C3: the library-only state (zone 30, otherwise countable)
is inert under erasure and yields empty mappings. -/
theorem c3_zone_filter_witness :
    countRevealedCards (eraseInstance libraryOnlyState 700) = countRevealedCards libraryOnlyState
    ∧ countRevealedCards libraryOnlyState = (fun _ => 0, fun _ => 0) :=
  ⟨c3_zone_filter.1 libraryOnlyState 700 (by decide),
   c3_zone_filter.2.1 libraryOnlyState (by decide)⟩

/-- **C4.** Split/dual-faced cards collapse to one countable identity:
an id that is a key of the split map never appears in either output
mapping (its count is 0 in every state); a tracked object whose grpId is a
half id is stored under the canonical id before counting; and in the
Fire // Ice scenario (halves 11, 12, canonical 10) revealing one instance
of each half in seat 1's hand yields player count 2 for id 10 and 0 for
every other id, with an empty opponent mapping. -/
theorem c4_split_collapse :
    (∀ (st : ParserState) (g : Nat), (dlookup st.split_card_grp_map g).isSome →
        (countRevealedCards st).1 g = 0 ∧ (countRevealedCards st).2 g = 0)
    ∧ (∀ (st : ParserState) (o : GameObject) (iid h f : Nat),
        o.instanceId = some iid → o.grpId = some h →
        (dlookup st.card_db h).isSome → dlookup st.split_card_grp_map h = some f →
        (o.visibility = "Visibility_Public" ∨ o.ownerSeatId = some st.player_seat_id) →
        dlookup (trackObject st o).instance_locations iid =
          some ⟨f, o.zoneId, o.ownerSeatId, o.visibility⟩)
    ∧ (countRevealedCards scenarioC4).1 10 = 2
    ∧ (∀ g : Nat, g ≠ 10 → (countRevealedCards scenarioC4).1 g = 0)
    ∧ (∀ g : Nat, (countRevealedCards scenarioC4).2 g = 0) := by
  refine ⟨?_, ?_, by decide, ?_, ?_⟩
  · intro st g hsome
    rcases Option.isSome_iff_exists.mp hsome with ⟨v, hv⟩
    constructor
    · have he : (countRevealedCards st).1 g =
          (((zoneCardKeys st).filter
              (fun k => k.1 = g && (dlookup st.split_card_grp_map k.1).isNone
                && k.2.1 = some st.player_seat_id)).map (numCopies st)).sum := rfl
      rw [he]
      have hnil : (zoneCardKeys st).filter
          (fun k => k.1 = g && (dlookup st.split_card_grp_map k.1).isNone
            && k.2.1 = some st.player_seat_id) = [] := by
        rw [List.filter_eq_nil_iff]
        intro k _
        by_cases hkg : k.1 = g
        · simp [hkg, hv]
        · simp [hkg]
      rw [hnil]
      rfl
    · have he : (countRevealedCards st).2 g =
          (((zoneCardKeys st).filter
              (fun k => k.1 = g && (dlookup st.split_card_grp_map k.1).isNone
                && !(k.2.1 = some st.player_seat_id)
                && k.2.1 = some st.opponent_seat_id)).map (numCopies st)).sum := rfl
      rw [he]
      have hnil : (zoneCardKeys st).filter
          (fun k => k.1 = g && (dlookup st.split_card_grp_map k.1).isNone
            && !(k.2.1 = some st.player_seat_id)
            && k.2.1 = some st.opponent_seat_id) = [] := by
        rw [List.filter_eq_nil_iff]
        intro k _
        by_cases hkg : k.1 = g
        · simp [hkg, hv]
        · simp [hkg]
      rw [hnil]
      rfl
  · intro st o iid h f hi hg hdb hsf hvis
    unfold trackObject
    rw [hi, hg]
    dsimp only
    rcases Option.isSome_iff_exists.mp hdb with ⟨ci, hci⟩
    have h1 : ¬((dlookup st.card_db h).isNone = true) := by simp [hci]
    rw [if_neg h1]
    have h2 : splitGet st.split_card_grp_map h = f := by
      unfold splitGet
      rw [hsf]
      rfl
    rw [h2]
    repeat' split
    all_goals exact dlookup_dset_self _ _ _
  · intro g hg
    exact count_player_single scenarioC4 10 (some 1) (some 31) (by decide) g hg
  · intro g
    exact count_opp_single scenarioC4 10 (some 31) (by decide) g

/-- Witness for C4: half id 11 of the Fire // Ice scenario never appears
in the outputs, and tracking `obj600` (grpId 11) stores the canonical
id 10. -/
theorem c4_split_collapse_witness :
    ((countRevealedCards scenarioC4).1 11 = 0 ∧ (countRevealedCards scenarioC4).2 11 = 0)
    ∧ dlookup (trackObject (initState fireIceDb 1) obj600).instance_locations 600 =
        some ⟨10, some 31, some 1, "Visibility_Public"⟩ :=
  ⟨c4_split_collapse.1 scenarioC4 11 (by decide),
   c4_split_collapse.2.1 (initState fireIceDb 1) obj600 600 11 10 rfl rfl (by decide)
     (by decide) (Or.inl rfl)⟩

/-- **C5.** The tracker never retains state for hidden objects: a run of
game objects all failing the visibility test (not `Visibility_Public` and
not owned by the local player) leaves `instance_locations` — and therefore
both output mappings — unchanged. -/
theorem c5_visibility_boundary :
    ∀ (st : ParserState) (objs : List GameObject),
      (∀ o ∈ objs, o.visibility ≠ "Visibility_Public" ∧ o.ownerSeatId ≠ some st.player_seat_id) →
      (List.foldl trackObject st objs).instance_locations = st.instance_locations
      ∧ countRevealedCards (List.foldl trackObject st objs) = countRevealedCards st := by
  have key : ∀ (objs : List GameObject) (st : ParserState),
      (∀ o ∈ objs, o.visibility ≠ "Visibility_Public" ∧ o.ownerSeatId ≠ some st.player_seat_id) →
      (List.foldl trackObject st objs).instance_locations = st.instance_locations := by
    intro objs
    induction objs with
    | nil => intro st _; rfl
    | cons o rest ih =>
      intro st h
      rw [List.foldl_cons]
      have h0 := h o (List.mem_cons_self o rest)
      have hrest : ∀ o' ∈ rest,
          o'.visibility ≠ "Visibility_Public" ∧ o'.ownerSeatId ≠ some (trackObject st o).player_seat_id := by
        intro o' ho'
        rw [trackObject_pseat]
        exact h o' (List.mem_cons_of_mem o ho')
      rw [ih (trackObject st o) hrest]
      exact trackObject_hidden st o h0.1 h0.2
  intro st objs h
  refine ⟨key objs st h, ?_⟩
  apply countRevealedCards_congr
  · apply instanceFinalLocation_congr
    · exact key objs st h
    · exact trackFold_idmap objs st
    · exact trackFold_phand objs st
    · exact trackFold_ohand objs st
  · exact trackFold_split objs st
  · exact trackFold_pseat objs st
  · exact trackFold_oseat objs st

/-- Witness for C5: the privately-visible opponent object `objHidden` is
not tracked and the outputs are unchanged. -/
theorem c5_visibility_boundary_witness :
    (List.foldl trackObject (initState oneCardDb 1) [objHidden]).instance_locations =
        (initState oneCardDb 1).instance_locations
    ∧ countRevealedCards (List.foldl trackObject (initState oneCardDb 1) [objHidden]) =
        countRevealedCards (initState oneCardDb 1) :=
  c5_visibility_boundary (initState oneCardDb 1) [objHidden] (by decide)


/-! ## Split-map idempotence: supporting lemmas -/

theorem db_key_unique {k : Nat} {a b : CardInfo} {db : List (Nat × CardInfo)}
    (hnd : (db.map Prod.fst).Nodup) (ha : (k, a) ∈ db) (hb : (k, b) ∈ db) : a = b := by
  induction db with
  | nil => simp at ha
  | cons e rest ih =>
    rw [List.map_cons, List.nodup_cons] at hnd
    rcases List.mem_cons.mp ha with ha1 | ha1 <;> rcases List.mem_cons.mp hb with hb1 | hb1
    · rw [← ha1] at hb1
      exact (Prod.mk.injEq _ _ _ _ ▸ hb1 : _ ∧ _).2.symm
    · exfalso
      exact hnd.1 (List.mem_map.mpr ⟨(k, b), hb1, by rw [← ha1]⟩)
    · exfalso
      exact hnd.1 (List.mem_map.mpr ⟨(k, a), ha1, by rw [← hb1]⟩)
    · exact ih hnd.2 ha1 hb1

theorem noFaceOverlap_spec {db : List (Nat × CardInfo)} (h : noFaceOverlap db = true) :
    ∀ e ∈ db, ∀ e2 ∈ db, isSplitName e.2.name = true →
      e.2.name ∉ (faceParts e2.2.name).getD [] := by
  intro e he e2 he2 hs hmem
  have h1 := List.all_eq_true.mp (List.all_eq_true.mp h e he) e2 he2
  rw [hs] at h1
  simp only [Bool.not_true, Bool.false_or] at h1
  rw [Bool.not_eq_true'] at h1
  rw [List.contains_eq_any_beq] at h1
  simp only [List.any_eq_false, beq_iff_eq] at h1
  exact h1 e.2.name hmem rfl

theorem mapHalfToFull_mem (fcs : List (String × Nat)) (gm : List (Nat × Nat)) (name : String)
    (grp : Nat) (p : Nat × Nat) (hp : p ∈ mapHalfToFull gm name grp fcs) :
    p ∈ gm ∨ (p.1 = grp ∧ ∃ fc ∈ fcs, ∃ parts, faceParts fc.1 = some parts ∧ name ∈ parts ∧ p.2 = fc.2) := by
  induction fcs generalizing gm with
  | nil => exact Or.inl hp
  | cons fc rest ih =>
    unfold mapHalfToFull at hp
    cases hf : faceParts fc.1 with
    | none =>
      rw [hf] at hp
      rcases ih gm hp with h1 | ⟨h1, fc2, hfc2, rest2⟩
      · exact Or.inl h1
      · exact Or.inr ⟨h1, fc2, List.mem_cons_of_mem fc hfc2, rest2⟩
    | some parts =>
      rw [hf] at hp
      dsimp only at hp
      by_cases hn : name ∈ parts
      · rw [if_pos hn] at hp
        rcases mem_dset hp with h1 | h1
        · refine Or.inr ⟨by rw [h1], fc, List.mem_cons_self fc rest, parts, hf, hn, by rw [h1]⟩
        · exact Or.inl h1
      · rw [if_neg hn] at hp
        rcases ih gm hp with h1 | ⟨h1, fc2, hfc2, rest2⟩
        · exact Or.inl h1
        · exact Or.inr ⟨h1, fc2, List.mem_cons_of_mem fc hfc2, rest2⟩


theorem sfp_inv (db : List (Nat × CardInfo)) :
    (∀ p ∈ (splitFirstPass db).1,
        ∃ c, (p.2, c) ∈ db ∧ c.name = p.1 ∧ isSplitName p.1 = true)
    ∧ (∀ p ∈ (splitFirstPass db).1, ∀ q ∈ (splitFirstPass db).1, p.1 = q.1 → p.2 = q.2)
    ∧ (∀ q ∈ (splitFirstPass db).2, ∀ g ∈ q.2, ∃ c, (g, c) ∈ db ∧ c.name = q.1) := by
  have main : ∀ (l : List (Nat × CardInfo))
      (acc : List (String × Nat) × List (String × List Nat)),
      (∀ e ∈ l, e ∈ db) →
      ((∀ p ∈ acc.1, ∃ c, (p.2, c) ∈ db ∧ c.name = p.1 ∧ isSplitName p.1 = true)
        ∧ (∀ p ∈ acc.1, ∀ q ∈ acc.1, p.1 = q.1 → p.2 = q.2)
        ∧ (∀ q ∈ acc.2, ∀ g ∈ q.2, ∃ c, (g, c) ∈ db ∧ c.name = q.1)) →
      ((∀ p ∈ (List.foldl
            (fun acc e =>
              let name := e.2.name
              if isSplitName name then
                let acc1 :=
                  if (dlookup acc.1 name).isNone then
                    (dset acc.1 name e.1, dset acc.2 name [])
                  else acc
                (acc1.1, dset acc1.2 name (((dlookup acc1.2 name).getD []) ++ [e.1]))
              else acc) acc l).1,
          ∃ c, (p.2, c) ∈ db ∧ c.name = p.1 ∧ isSplitName p.1 = true)
        ∧ (∀ p ∈ (List.foldl
            (fun acc e =>
              let name := e.2.name
              if isSplitName name then
                let acc1 :=
                  if (dlookup acc.1 name).isNone then
                    (dset acc.1 name e.1, dset acc.2 name [])
                  else acc
                (acc1.1, dset acc1.2 name (((dlookup acc1.2 name).getD []) ++ [e.1]))
              else acc) acc l).1,
            ∀ q ∈ (List.foldl
            (fun acc e =>
              let name := e.2.name
              if isSplitName name then
                let acc1 :=
                  if (dlookup acc.1 name).isNone then
                    (dset acc.1 name e.1, dset acc.2 name [])
                  else acc
                (acc1.1, dset acc1.2 name (((dlookup acc1.2 name).getD []) ++ [e.1]))
              else acc) acc l).1, p.1 = q.1 → p.2 = q.2)
        ∧ (∀ q ∈ (List.foldl
            (fun acc e =>
              let name := e.2.name
              if isSplitName name then
                let acc1 :=
                  if (dlookup acc.1 name).isNone then
                    (dset acc.1 name e.1, dset acc.2 name [])
                  else acc
                (acc1.1, dset acc1.2 name (((dlookup acc1.2 name).getD []) ++ [e.1]))
              else acc) acc l).2,
            ∀ g ∈ q.2, ∃ c, (g, c) ∈ db ∧ c.name = q.1)) := by
    intro l
    induction l with
    | nil => exact fun acc _ h => h
    | cons e rest ih =>
      intro acc hsub hinv
      rw [List.foldl_cons]
      refine ih _ (fun x hx => hsub x (List.mem_cons_of_mem e hx)) ?_
      have hedb : e ∈ db := hsub e (List.mem_cons_self e rest)
      obtain ⟨inv1, inv2, inv3⟩ := hinv
      dsimp only
      by_cases hs : isSplitName e.2.name
      · rw [if_pos hs]
        by_cases hl : (dlookup acc.1 e.2.name).isNone
        · rw [if_pos hl]
          dsimp only
          rw [dlookup_dset_self]
          simp only [Option.getD_some, List.nil_append]
          have hnone : dlookup acc.1 e.2.name = none := Option.isNone_iff_eq_none.mp hl
          refine ⟨?_, ?_, ?_⟩
          · intro p hp
            rcases mem_dset hp with h1 | h1
            · rw [h1]
              exact ⟨e.2, by rw [Prod.mk.eta]; exact hedb, rfl, hs⟩
            · exact inv1 p h1
          · intro p hp q hq
            rcases mem_dset hp with h1 | h1 <;> rcases mem_dset hq with h2 | h2
            · rw [h1, h2]; intro _; rfl
            · intro hpq
              exfalso
              have hqn : q.1 = e.2.name := by rw [← hpq, h1]
              have hmem2 : (e.2.name, q.2) ∈ acc.1 := by rw [← hqn, Prod.mk.eta]; exact h2
              exact dlookup_eq_none_not_mem hnone hmem2
            · intro hpq
              exfalso
              have hpn : p.1 = e.2.name := by rw [hpq, h2]
              have hmem2 : (e.2.name, p.2) ∈ acc.1 := by rw [← hpn, Prod.mk.eta]; exact h1
              exact dlookup_eq_none_not_mem hnone hmem2
            · exact inv2 p h1 q h2
          · intro q hq g hg
            rcases mem_dset hq with h1 | h1
            · rw [h1] at hg ⊢
              simp only [List.mem_singleton] at hg
              subst hg
              exact ⟨e.2, by rw [Prod.mk.eta]; exact hedb, rfl⟩
            · rcases mem_dset h1 with h2 | h2
              · rw [h2] at hg; simp at hg
              · exact inv3 q h2 g hg
        · rw [if_neg hl]
          dsimp only
          refine ⟨inv1, inv2, ?_⟩
          intro q hq g hg
          rcases mem_dset hq with h1 | h1
          · rw [h1] at hg ⊢
            dsimp only at hg ⊢
            rcases List.mem_append.mp hg with h2 | h2
            · cases ho : dlookup acc.2 e.2.name with
              | none => rw [ho] at h2; simp at h2
              | some l0 =>
                rw [ho] at h2
                exact inv3 (e.2.name, l0) (dlookup_mem ho) g h2
            · simp only [List.mem_singleton] at h2
              subst h2
              exact ⟨e.2, by rw [Prod.mk.eta]; exact hedb, rfl⟩
          · exact inv3 q h1 g hg
      · rw [if_neg hs]
        exact ⟨inv1, inv2, inv3⟩
  exact main db ([], []) (fun e he => he) ⟨by simp, by simp, by simp⟩


theorem bscm_mem (db : List (Nat × CardInfo)) :
    ∀ p ∈ buildSplitCardMap db,
      ∃ fc ∈ (splitFirstPass db).1, p.2 = fc.2 ∧
        ((p.1 ≠ fc.2 ∧ ∃ c, (p.1, c) ∈ db ∧ c.name = fc.1)
          ∨ (∃ c parts, (p.1, c) ∈ db ∧ faceParts fc.1 = some parts ∧ c.name ∈ parts)) := by
  have hinner : ∀ (fc : String × Nat), fc ∈ (splitFirstPass db).1 →
      ∀ (ids : List Nat), (∀ g ∈ ids, ∃ c, (g, c) ∈ db ∧ c.name = fc.1) →
      ∀ gm : List (Nat × Nat),
      (∀ p ∈ gm, ∃ fc2 ∈ (splitFirstPass db).1, p.2 = fc2.2 ∧
          ((p.1 ≠ fc2.2 ∧ ∃ c, (p.1, c) ∈ db ∧ c.name = fc2.1)
            ∨ (∃ c parts, (p.1, c) ∈ db ∧ faceParts fc2.1 = some parts ∧ c.name ∈ parts))) →
      ∀ p ∈ List.foldl (fun gm g => if g ≠ fc.2 then dset gm g fc.2 else gm) gm ids,
        ∃ fc2 ∈ (splitFirstPass db).1, p.2 = fc2.2 ∧
          ((p.1 ≠ fc2.2 ∧ ∃ c, (p.1, c) ∈ db ∧ c.name = fc2.1)
            ∨ (∃ c parts, (p.1, c) ∈ db ∧ faceParts fc2.1 = some parts ∧ c.name ∈ parts)) := by
    intro fc hfc ids
    induction ids with
    | nil => exact fun _ gm h p hp => h p hp
    | cons g grest gih =>
      intro hgs gm hgm
      rw [List.foldl_cons]
      refine gih (fun x hx => hgs x (List.mem_cons_of_mem g hx)) _ ?_
      intro p hp
      by_cases hne : g ≠ fc.2
      · rw [if_pos hne] at hp
        rcases mem_dset hp with h1 | h1
        · rcases hgs g (List.mem_cons_self g grest) with ⟨c, hcdb, hcn⟩
          refine ⟨fc, hfc, by rw [h1], Or.inl ⟨by rw [h1]; exact hne, c, by rw [h1]; exact hcdb, hcn⟩⟩
        · exact hgm p h1
      · rw [if_neg hne] at hp
        exact hgm p hp
  have houter : ∀ (l : List (String × Nat)), (∀ fc ∈ l, fc ∈ (splitFirstPass db).1) →
      ∀ gm : List (Nat × Nat),
      (∀ p ∈ gm, ∃ fc2 ∈ (splitFirstPass db).1, p.2 = fc2.2 ∧
          ((p.1 ≠ fc2.2 ∧ ∃ c, (p.1, c) ∈ db ∧ c.name = fc2.1)
            ∨ (∃ c parts, (p.1, c) ∈ db ∧ faceParts fc2.1 = some parts ∧ c.name ∈ parts))) →
      ∀ p ∈ List.foldl
          (fun gm fc =>
            ((dlookup (splitFirstPass db).2 fc.1).getD []).foldl
              (fun gm g => if g ≠ fc.2 then dset gm g fc.2 else gm) gm) gm l,
        ∃ fc2 ∈ (splitFirstPass db).1, p.2 = fc2.2 ∧
          ((p.1 ≠ fc2.2 ∧ ∃ c, (p.1, c) ∈ db ∧ c.name = fc2.1)
            ∨ (∃ c parts, (p.1, c) ∈ db ∧ faceParts fc2.1 = some parts ∧ c.name ∈ parts)) := by
    intro l
    induction l with
    | nil => exact fun _ gm h p hp => h p hp
    | cons fc rest ih =>
      intro hsub gm hgm
      rw [List.foldl_cons]
      refine ih (fun x hx => hsub x (List.mem_cons_of_mem fc hx)) _ ?_
      have hfc := hsub fc (List.mem_cons_self fc rest)
      have hids : ∀ g ∈ (dlookup (splitFirstPass db).2 fc.1).getD [],
          ∃ c, (g, c) ∈ db ∧ c.name = fc.1 := by
        cases hd : dlookup (splitFirstPass db).2 fc.1 with
        | none => simp
        | some l0 =>
          simp only [Option.getD_some]
          exact fun g hg => (sfp_inv db).2.2 (fc.1, l0) (dlookup_mem hd) g hg
      exact hinner fc hfc _ hids gm hgm
  have hB : ∀ (l : List (Nat × CardInfo)), (∀ e ∈ l, e ∈ db) →
      ∀ gm : List (Nat × Nat),
      (∀ p ∈ gm, ∃ fc2 ∈ (splitFirstPass db).1, p.2 = fc2.2 ∧
          ((p.1 ≠ fc2.2 ∧ ∃ c, (p.1, c) ∈ db ∧ c.name = fc2.1)
            ∨ (∃ c parts, (p.1, c) ∈ db ∧ faceParts fc2.1 = some parts ∧ c.name ∈ parts))) →
      ∀ p ∈ List.foldl (fun gm e => mapHalfToFull gm e.2.name e.1 (splitFirstPass db).1) gm l,
        ∃ fc2 ∈ (splitFirstPass db).1, p.2 = fc2.2 ∧
          ((p.1 ≠ fc2.2 ∧ ∃ c, (p.1, c) ∈ db ∧ c.name = fc2.1)
            ∨ (∃ c parts, (p.1, c) ∈ db ∧ faceParts fc2.1 = some parts ∧ c.name ∈ parts)) := by
    intro l
    induction l with
    | nil => exact fun _ gm h p hp => h p hp
    | cons e rest ih =>
      intro hsub gm hgm
      rw [List.foldl_cons]
      refine ih (fun x hx => hsub x (List.mem_cons_of_mem e hx)) _ ?_
      have hedb : e ∈ db := hsub e (List.mem_cons_self e rest)
      intro p hp
      rcases mapHalfToFull_mem (splitFirstPass db).1 gm e.2.name e.1 p hp with h1 | ⟨h1, fc2, hfc2, parts, hparts, hname, hp2⟩
      · exact hgm p h1
      · refine ⟨fc2, hfc2, hp2, Or.inr ⟨e.2, parts, ?_, hparts, hname⟩⟩
        rw [h1, Prod.mk.eta]
        exact hedb
  intro p hp
  unfold buildSplitCardMap at hp
  dsimp only at hp
  exact hB db (fun e he => he) _ (houter (splitFirstPass db).1 (fun fc h => h) [] (by simp)) p hp


/-- **C9 (counterexample).** As stated — for every catalog and every card id
`x`, `SplitMap(SplitMap(x)) = SplitMap(x)` — the claim is false: in
`chainDb` the full name `"X /// A"` is itself a face of `"X /// A // B"`
(whose separator resolves to `' // '`), so the canonical id 20 is also a
key of the map and `SplitMap(SplitMap(30)) = 10 ≠ 20 = SplitMap(30)`. -/
theorem c9_split_map_not_idempotent :
    ¬ ∀ (db : List (Nat × CardInfo)) (x : Nat),
        splitGet (buildSplitCardMap db) (splitGet (buildSplitCardMap db) x) =
          splitGet (buildSplitCardMap db) x := by
  intro h
  exact absurd (h chainDb 30) (by decide)

/-- **C9 (amended).** For a catalog with unique keys in which no full
split-card name is itself a face name of another full card, the split map
extended by identity is idempotent: every value of the map is canonical and
never again a key, so `SplitMap(SplitMap(x)) = SplitMap(x)` for all x. -/
theorem c9_split_map_idempotent_amended (db : List (Nat × CardInfo))
    (hnd : (db.map Prod.fst).Nodup) (hno : noFaceOverlap db = true) (x : Nat) :
    splitGet (buildSplitCardMap db) (splitGet (buildSplitCardMap db) x) =
      splitGet (buildSplitCardMap db) x := by
  cases hx : dlookup (buildSplitCardMap db) x with
  | none =>
    have h0 : splitGet (buildSplitCardMap db) x = x := by
      unfold splitGet
      rw [hx]
      rfl
    rw [h0]
    exact h0
  | some v =>
    have h0 : splitGet (buildSplitCardMap db) x = v := by
      unfold splitGet
      rw [hx]
      rfl
    rw [h0]
    have hv : dlookup (buildSplitCardMap db) v = none := by
      cases hv2 : dlookup (buildSplitCardMap db) v with
      | none => rfl
      | some w =>
        exfalso
        have hmemx := dlookup_mem hx
        have hmemv := dlookup_mem hv2
        rcases bscm_mem db (x, v) hmemx with ⟨fc0, hfc0, hveq, _⟩
        rcases (sfp_inv db).1 fc0 hfc0 with ⟨c0, hc0db, hc0name, hc0split⟩
        have hvc0 : (v, c0) ∈ db := by
          have hv0 : v = fc0.2 := hveq
          rw [hv0]
          exact hc0db
        rcases bscm_mem db (v, w) hmemv with ⟨fc1, hfc1, hweq, hcase⟩
        rcases (sfp_inv db).1 fc1 hfc1 with ⟨c1p, hc1pdb, hc1pname, _⟩
        rcases hcase with ⟨hne, c, hcdb, hcname⟩ | ⟨c, parts, hcdb, hparts, hcname⟩
        · have hcc0 : c = c0 := db_key_unique hnd hcdb hvc0
          have h11 : fc1.1 = fc0.1 := by rw [← hcname, hcc0, hc0name]
          have h22 : fc1.2 = fc0.2 := (sfp_inv db).2.1 fc1 hfc1 fc0 hfc0 h11
          apply hne
          show v = fc1.2
          rw [h22]
          exact hveq
        · have hcc0 : c = c0 := db_key_unique hnd hcdb hvc0
          have hsplitc0 : isSplitName c0.name = true := by
            rw [hc0name]
            exact hc0split
          have hforb := noFaceOverlap_spec hno (v, c0) hvc0 (fc1.2, c1p) hc1pdb hsplitc0
          apply hforb
          show c0.name ∈ (faceParts c1p.name).getD []
          rw [hc1pname, hparts]
          show c0.name ∈ parts
          rw [← hcc0]
          exact hcname
    unfold splitGet
    rw [hv]
    rfl

/-- Witness for the amended C9 at the Fire // Ice catalog and half id 11. -/
theorem c9_split_map_idempotent_witness :
    splitGet (buildSplitCardMap fireIceDb) (splitGet (buildSplitCardMap fireIceDb) 11) =
      splitGet (buildSplitCardMap fireIceDb) 11 :=
  c9_split_map_idempotent_amended fireIceDb (by decide) (by decide) 11

end MTGA
